import Mathlib

/-!
Verification of the `UserService` persistence layer of the
nest-graphql-typeorm repository (src/src/city/dto/city.dto.ts,
`UserService`), shallowly embedded in Lean 4.

The database is modelled as an explicit state (`DbState`) holding the user
rows and the session rows; Sequelize repository calls (`findOne`, `findAll`,
`create`, `update`, `destroy`) are modelled as pure functions over that
state.  A boolean `dbFail` flag models the underlying database call throwing
(connection error and the like); each service method receives it and maps it
through its own `try/catch` exactly as the TypeScript source does.  `bcrypt`
is an external library, so the hash function is a parameter of the
operations that use it (mirroring the dependency injection in the source).
-/

namespace NestGraphqlTypeorm

/-- A user row, per the data model (id, username, passwordHash, displayName,
userRoleName, version). -/
structure User where
  id : Nat
  username : String
  passwordHash : String
  displayName : String
  userRoleName : String
  version : Nat
deriving Repr, DecidableEq

/-- A session row; only its owning user id matters for the cascade delete. -/
structure Session where
  id : Nat
  userId : Nat
deriving Repr, DecidableEq

/-- The database state: the user table and the session table. -/
structure DbState where
  users : List User
  sessions : List Session
deriving Repr, DecidableEq

/-- Errors surfaced to the caller.  `badRequest` models NestJS
`BadRequestException`; `messageCode c` models `MessageCodeError(c)`;
`notFound` and `conflict` are the two distinct error kinds the
optimistic-locking decorator distinguishes (its code is outside src/, spec:
"mismatch signals a conflict error distinct from not-found"). -/
inductive ServiceError where
  | badRequest
  | messageCode (code : String)
  | notFound
  | conflict
deriving Repr, DecidableEq

deriving instance DecidableEq for Except

/-- Input to `userCreate` (UserCreateInputDto).  The DTO file is not under
src/; fields are those the service body reads, plus `displayName`, which a
caller may supply and which the service overrides. -/
structure UserCreateInputDto where
  username : String
  passwordHash : String
  firstName : String
  secondName : String
  middleName : String
  userRoleName : String
  displayName : String
deriving Repr, DecidableEq

/-- Input to `userUpdate` (UserUpdateInputDto): the create fields plus the
row `id` and the caller-read `version` for optimistic locking. -/
structure UserUpdateInputDto where
  id : Nat
  version : Nat
  username : String
  passwordHash : String
  firstName : String
  secondName : String
  middleName : String
  userRoleName : String
  displayName : String
deriving Repr, DecidableEq

/-- Input to `userDelete` (UserDeleteInputDto), shaped like
CustomerDeleteInputDto in src/: an id and the caller-read version. -/
structure UserDeleteInputDto where
  id : Nat
  version : Nat
deriving Repr, DecidableEq

/-- Arguments of `usersFind` (UserFindArgsDto): a list of ids and a list of
usernames. -/
structure UserFindArgsDto where
  ids : List Nat
  usernames : List String
deriving Repr, DecidableEq

/-! ## Sequelize `where`-condition model

`usersFind` builds nested plain objects and `Op.or` arrays.  A plain object
is a conjunction of field constraints (the empty object `{}` is the empty
conjunction, matching every row); `Op.or` over a list matches a row when some
member does. -/

inductive Cond where
  | fieldId (v : Nat)
  | fieldUsername (v : String)
  | and (cs : List Cond)
  | or (cs : List Cond)
deriving Repr

mutual

def Cond.eval (u : User) : Cond → Bool
  | .fieldId v => u.id == v
  | .fieldUsername v => u.username == v
  | .and cs => Cond.evalAll u cs
  | .or cs => Cond.evalAny u cs

def Cond.evalAll (u : User) : List Cond → Bool
  | [] => true
  | c :: cs => Cond.eval u c && Cond.evalAll u cs

def Cond.evalAny (u : User) : List Cond → Bool
  | [] => false
  | c :: cs => Cond.eval u c || Cond.evalAny u cs

end

/-! ## Sequelize repository operations -/

/-- `Repository.findOne`: the first row satisfying the condition. -/
def findOneUser (st : DbState) (p : User → Bool) : Option User :=
  st.users.find? p

/-- Lexicographic order on strings as character lists (codepoint-wise),
modelling the database collation behind `ORDER BY ... ASC`. -/
def charListLE : List Char → List Char → Bool
  | [], _ => true
  | _ :: _, [] => false
  | a :: as, b :: bs =>
    if a.toNat < b.toNat then true
    else if b.toNat < a.toNat then false
    else charListLE as bs

/-- Ascending order on `displayName` (`order: [['displayName', 'ASC']]`). -/
def byDisplayNameLE (a b : User) : Prop :=
  charListLE a.displayName.data b.displayName.data = true

instance : DecidableRel byDisplayNameLE :=
  fun a b =>
    inferInstanceAs (Decidable (charListLE a.displayName.data b.displayName.data = true))

/-- Options of a `findAll` call: a row filter, whether
`order: [[displayName, ASC]]` was requested, and `offset`/`limit`. -/
structure FindAllOptions where
  wher : User → Bool
  orderedByDisplayName : Bool
  offset : Nat
  limit : Option Nat
deriving Inhabited

/-- `Repository.findAll`: filter, optionally sort ascending by
`displayName`, then apply `offset` and `limit`. -/
def findAllUsers (st : DbState) (o : FindAllOptions) : List User :=
  let matched := st.users.filter o.wher
  let ordered :=
    if o.orderedByDisplayName then matched.insertionSort byDisplayNameLE else matched
  let skipped := ordered.drop o.offset
  match o.limit with
  | none => skipped
  | some n => skipped.take n

/-- Does `hay` contain `needle` as a contiguous substring (character-wise)? -/
def listHasRun (needle hay : List Char) : Bool :=
  (List.range (hay.length + 1)).any (fun i => List.isPrefixOf needle (hay.drop i))

/-- Semantics of the case-insensitive regexp `(^t)|( t)` that `userList`
builds from a non-empty text filter `t` and Postgres applies via
`Op.iRegexp`: the lowercased `displayName` either starts with the lowercased
`t`, or contains a space immediately followed by it. -/
def iRegexpMatchNonEmpty (t displayName : String) : Bool :=
  let tl := t.data.map Char.toLower
  let dl := displayName.data.map Char.toLower
  List.isPrefixOf tl dl || listHasRun (' ' :: tl) dl

/-- lodash `isEmpty` on the (possibly missing) text filter argument:
`undefined` and the empty string are both empty. -/
def isEmptyText : Option String → Bool
  | none => true
  | some s => s = ""

/-- The regular expression `userList` hands to `Op.iRegexp`, as an AST:
either the empty pattern or the literal pattern string
`(^` ++ t ++ `)|( ` ++ t ++ `)` built from a text filter `t`. -/
inductive IRegexp where
  | empty
  | startOrAfterSpace (t : String)
deriving Repr, DecidableEq

/-- Case-insensitive matching of the two regexp shapes `userList` builds:
the empty pattern matches every string; `(^t)|( t)` matches strings whose
lowercasing starts with the lowercased `t` or contains a space immediately
followed by it. -/
def IRegexp.test : IRegexp → String → Bool
  | .empty, _ => true
  | .startOrAfterSpace t, d =>
    iRegexpMatchNonEmpty t d

/-! ## UserService read operations

Each read wraps the repository call in `try/catch` and converts any thrown
error into `BadRequestException`; `dbFail = true` models the underlying call
throwing. -/

/-- `UserService.userFind`: `findOne` by username (auth module lookup). -/
def userFind (st : DbState) (dbFail : Bool) (username : String) :
    Except ServiceError (Option User) :=
  if dbFail then .error .badRequest
  else .ok (findOneUser st (fun u => u.username == username))

/-- `UserService.userRoleFind`: `findOne` by id (RolesGuard lookup). -/
def userRoleFind (st : DbState) (dbFail : Bool) (id : Nat) :
    Except ServiceError (Option User) :=
  if dbFail then .error .badRequest
  else .ok (findOneUser st (fun u => u.id == id))

/-- `UserService.checkVersion`: `findOne` by id, reading the `version`
column, used by the `@OptimisticLocking` decorator. -/
def checkVersion (st : DbState) (dbFail : Bool) (id : Nat) :
    Except ServiceError (Option User) :=
  if dbFail then .error .badRequest
  else .ok (findOneUser st (fun u => u.id == id))

/-- `UserService.userNameFind`: `findOne` by username, used by the
`@CheckIsValueUnique` decorator. -/
def userNameFind (st : DbState) (dbFail : Bool) (username : String) :
    Except ServiceError (Option User) :=
  if dbFail then .error .badRequest
  else .ok (findOneUser st (fun u => u.username == username))

/-- `UserService.user`: `findOne` by id with the role model included. -/
def user (st : DbState) (dbFail : Bool) (id : Nat) :
    Except ServiceError (Option User) :=
  if dbFail then .error .badRequest
  else .ok (findOneUser st (fun u => u.id == id))

/-- The regexp `userList` builds from its text filter:
`isEmpty(textFilter) ? `` : `(^t)|( t)``. -/
def userListRegexp (textFilter : Option String) : IRegexp :=
  if isEmptyText textFilter then .empty
  else .startOrAfterSpace (textFilter.getD "")

/-- `UserService.userList`: `findAll` with the `Op.iRegexp` filter on
`displayName`, `limit: paging`, `offset: (page-1)*paging`, ordered ascending
by `displayName`. -/
def userList (st : DbState) (dbFail : Bool) (textFilter : Option String)
    (page paging : Nat) : Except ServiceError (List User) :=
  if dbFail then .error .badRequest
  else
    let iRegexp := userListRegexp textFilter
    .ok (findAllUsers st
      { wher := fun u => iRegexp.test u.displayName
        orderedByDisplayName := true
        offset := (page - 1) * paging
        limit := some paging })

/-- `UserService.usersFind`: builds `{}` or `{[Op.or]: [...]}` for the
username list and the id list, then `findAll` with
`where: {[Op.or]: [idWhereCondition, loginWhereCondition]}`. -/
def usersFind (st : DbState) (dbFail : Bool) (data : UserFindArgsDto) :
    Except ServiceError (List User) :=
  if dbFail then .error .badRequest
  else
    let loginWhereCondition : Cond :=
      if data.usernames.length > 0 then
        .or (data.usernames.map (fun username => .fieldUsername username))
      else .and []
    let idWhereCondition : Cond :=
      if data.ids.length > 0 then
        .or (data.ids.map (fun id => .fieldId id))
      else .and []
    .ok (findAllUsers st
      { wher := fun u => Cond.eval u (.or [idWhereCondition, loginWhereCondition])
        orderedByDisplayName := false
        offset := 0
        limit := none })

/-! ## UserService mutations

`bcryptHash : String → Nat → String` is the external `bcrypt.hash`
function, passed as a parameter; `UserService.hashPassword password rounds`
is exactly `bcrypt.hash(password, rounds)` and the service always calls it
with 12 rounds. -/

/-- Autoincrement primary key: one more than the largest existing id. -/
def nextUserId (st : DbState) : Nat :=
  (st.users.map User.id).foldr max 0 + 1

/-- The row `Repository.create` inserts for `userCreate`: the spread of the
input, with `displayName` overridden by
`` `${secondName} ${firstName} ${middleName}` `` and `passwordHash`
overridden by the bcrypt hash (12 rounds) of the supplied value. -/
def createdRow (bcryptHash : String → Nat → String) (st : DbState)
    (data : UserCreateInputDto) : User :=
  { id := nextUserId st
    username := data.username
    passwordHash := bcryptHash data.passwordHash 12
    displayName := data.secondName ++ " " ++ data.firstName ++ " " ++ data.middleName
    userRoleName := data.userRoleName
    version := 0 }

/-- `UserService.userCreate` body (inside its decorators): hash the password
with 12 rounds, insert the row; a thrown repository error without the
not-unique message code becomes `MessageCodeError('user:create:unableToCreateUser')`. -/
def userCreate (bcryptHash : String → Nat → String) (st : DbState) (dbFail : Bool)
    (data : UserCreateInputDto) : Except ServiceError User × DbState :=
  if dbFail then (.error (.messageCode "user:create:unableToCreateUser"), st)
  else
    let row := createdRow bcryptHash st data
    (.ok row, { st with users := st.users ++ [row] })

/-- The values `userUpdate` writes to a matched row: the spread of the
input (including the caller-supplied `version`), with `displayName` and
`passwordHash` overridden as in `userCreate`. -/
def updatedRow (bcryptHash : String → Nat → String) (data : UserUpdateInputDto) : User :=
  { id := data.id
    username := data.username
    passwordHash := bcryptHash data.passwordHash 12
    displayName := data.secondName ++ " " ++ data.firstName ++ " " ++ data.middleName
    userRoleName := data.userRoleName
    version := data.version }

/-- `UserService.userUpdate` body: `Repository.update` with
`where: {id: data.id}` and `returning: true`; `const [, [val]] = res` takes
the first returned (affected) row — `undefined` when no row matched.  A
thrown repository error without the not-unique code becomes
`MessageCodeError('user:update:unableToUpdateUser')`. -/
def userUpdate (bcryptHash : String → Nat → String) (st : DbState) (dbFail : Bool)
    (data : UserUpdateInputDto) : Except ServiceError (Option User) × DbState :=
  if dbFail then (.error (.messageCode "user:update:unableToUpdateUser"), st)
  else
    let affected := (st.users.filter (fun u => u.id == data.id)).map
      (fun _ => updatedRow bcryptHash data)
    let newUsers := st.users.map
      (fun u => if u.id == data.id then updatedRow bcryptHash data else u)
    (.ok affected.head?, { st with users := newUsers })

/-- Modelled from the spec: `SessionService.deleteAllSessions` (its code is
outside src/) deletes all session rows belonging to the given user, inside
the supplied transaction. -/
def deleteAllSessions (st : DbState) (userId : Nat) : DbState :=
  { st with sessions := st.sessions.filter (fun s => s.userId != userId) }

/-- `Repository.destroy` with `where: {id}`: removes the matching user rows
and returns how many were destroyed. -/
def destroyUser (st : DbState) (id : Nat) : Nat × DbState :=
  (st.users.countP (fun u => u.id == id),
   { st with users := st.users.filter (fun u => u.id != id) })

/-- `UserService.userDelete` body: open a transaction, delete the user's
sessions, destroy the user row, commit; on any failing step, roll the
transaction back (the state reverts to the original) and throw
`BadRequestException`.  `failSessions` and `failDestroy` model the two
repository calls inside the transaction throwing. -/
def userDelete (st : DbState) (failSessions failDestroy : Bool)
    (data : UserDeleteInputDto) : Except ServiceError Nat × DbState :=
  if failSessions then (.error .badRequest, st)
  else
    let st1 := deleteAllSessions st data.id
    if failDestroy then (.error .badRequest, st)
    else
      let r := destroyUser st1 data.id
      (.ok r.1, r.2)

/-! ## Cross-cutting decorators

The decorator implementations live in `src/common/decorators`, which is not
under src/; they are modelled from the spec. -/

/-- Modelled from the spec: the `CheckIsValueUnique('userNameFind',
'username', 'user:validate:notUniqueUserName')` decorator queries for an
existing row with the input's username via `userNameFind` (excluding the
current id on update, where the input carries an id); if one is found, the
call fails with the domain-specific message code and the wrapped method body
never runs. -/
def checkIsValueUnique (st : DbState) (dbFail : Bool) (username : String)
    (selfId : Option Nat) : Except ServiceError Unit :=
  match userNameFind st dbFail username with
  | .error e => .error e
  | .ok none => .ok ()
  | .ok (some u) =>
    match selfId with
    | none => .error (.messageCode "user:validate:notUniqueUserName")
    | some i =>
      if u.id == i then .ok ()
      else .error (.messageCode "user:validate:notUniqueUserName")

/-- Modelled from the spec: the `OptimisticLocking` decorator re-reads the
row's current `version` column via the service's `checkVersion` and compares
it with the caller-supplied version; a missing row fails with a not-found
error, and a version mismatch fails with a conflict error distinct from
not-found, before the wrapped method body runs. -/
def optimisticLockingCheck (st : DbState) (dbFail : Bool)
    (id suppliedVersion : Nat) : Except ServiceError Unit :=
  match checkVersion st dbFail id with
  | .error e => .error e
  | .ok none => .error .notFound
  | .ok (some row) =>
    if row.version == suppliedVersion then .ok () else .error .conflict

/-- `userCreate` as exposed: the `@CheckIsValueUnique` decorator runs before
the body. -/
def userCreateWrapped (bcryptHash : String → Nat → String) (st : DbState)
    (dbFail : Bool) (data : UserCreateInputDto) : Except ServiceError User × DbState :=
  match checkIsValueUnique st dbFail data.username none with
  | .error e => (.error e, st)
  | .ok _ => userCreate bcryptHash st dbFail data

/-- `userUpdate` as exposed: `@OptimisticLocking(true)` then
`@CheckIsValueUnique` run before the body. -/
def userUpdateWrapped (bcryptHash : String → Nat → String) (st : DbState)
    (dbFail : Bool) (data : UserUpdateInputDto) :
    Except ServiceError (Option User) × DbState :=
  match optimisticLockingCheck st dbFail data.id data.version with
  | .error e => (.error e, st)
  | .ok _ =>
    match checkIsValueUnique st dbFail data.username (some data.id) with
    | .error e => (.error e, st)
    | .ok _ => userUpdate bcryptHash st dbFail data

/-- `userDelete` as exposed: `@OptimisticLocking(false)` runs before the
transactional body. -/
def userDeleteWrapped (st : DbState) (checkFail failSessions failDestroy : Bool)
    (data : UserDeleteInputDto) : Except ServiceError Nat × DbState :=
  match optimisticLockingCheck st checkFail data.id data.version with
  | .error e => (.error e, st)
  | .ok _ => userDelete st failSessions failDestroy data

/-! ## Helper lemmas -/

theorem charListLE_total : ∀ as bs : List Char,
    charListLE as bs = true ∨ charListLE bs as = true := by
  intro as
  induction as with
  | nil => intro bs; left; rfl
  | cons a as ih =>
    intro bs
    cases bs with
    | nil => right; rfl
    | cons b bs =>
      by_cases h1 : a.toNat < b.toNat
      · left; simp [charListLE, h1]
      · by_cases h2 : b.toNat < a.toNat
        · right; simp [charListLE, h2]
        · rcases ih bs with h | h
          · left; simp [charListLE, h1, h2, h]
          · right; simp [charListLE, h1, h2, h]

theorem charListLE_trans : ∀ as bs cs : List Char,
    charListLE as bs = true → charListLE bs cs = true → charListLE as cs = true := by
  intro as
  induction as with
  | nil => intro bs cs _ _; rfl
  | cons a as ih =>
    intro bs cs h1 h2
    cases bs with
    | nil => simp [charListLE] at h1
    | cons b bs =>
      cases cs with
      | nil => simp [charListLE] at h2
      | cons c cs =>
        rcases Nat.lt_trichotomy a.toNat b.toNat with hab | hab | hab
        · rcases Nat.lt_trichotomy b.toNat c.toNat with hbc | hbc | hbc
          · simp [charListLE, Nat.lt_trans hab hbc]
          · simp [charListLE, hbc ▸ hab]
          · simp [charListLE, hbc, Nat.lt_asymm hbc] at h2
        · rcases Nat.lt_trichotomy b.toNat c.toNat with hbc | hbc | hbc
          · simp [charListLE, hab ▸ hbc]
          · have hac : a.toNat = c.toNat := hab.trans hbc
            simp [charListLE, hab, Nat.lt_irrefl] at h1
            simp [charListLE, hbc, Nat.lt_irrefl] at h2
            simp [charListLE, hac, Nat.lt_irrefl, ih bs cs h1 h2]
          · simp [charListLE, hbc, Nat.lt_asymm hbc] at h2
        · simp [charListLE, hab, Nat.lt_asymm hab] at h1

/-- A successful wrapped `userCreate` returned exactly the row built by the
body, and appended it to the user table. -/
theorem userCreateWrapped_ok (bh : String → Nat → String) (st : DbState)
    (dc : UserCreateInputDto) (u1 : User) (st1 : DbState)
    (hc : userCreateWrapped bh st false dc = (.ok u1, st1)) :
    u1 = createdRow bh st dc ∧ st1 = { st with users := st.users ++ [u1] } := by
  unfold userCreateWrapped at hc
  cases hcheck : checkIsValueUnique st false dc.username none with
  | error e => rw [hcheck] at hc; simp at hc
  | ok _ =>
    rw [hcheck] at hc
    unfold userCreate at hc
    simp at hc
    obtain ⟨h1, h2⟩ := hc
    exact ⟨h1.symm, by rw [← h2, h1]⟩

/-- A successful wrapped `userUpdate` that returned a row returned exactly
the written row, and rewrote every matching row to it. -/
theorem userUpdateWrapped_ok (bh : String → Nat → String) (st : DbState)
    (du : UserUpdateInputDto) (u2 : User) (st2 : DbState)
    (hu : userUpdateWrapped bh st false du = (.ok (some u2), st2)) :
    u2 = updatedRow bh du ∧
    st2.users = st.users.map
      (fun u => if u.id == du.id then updatedRow bh du else u) := by
  unfold userUpdateWrapped at hu
  cases hlock : optimisticLockingCheck st false du.id du.version with
  | error e => rw [hlock] at hu; simp at hu
  | ok _ =>
    rw [hlock] at hu
    cases hcheck : checkIsValueUnique st false du.username (some du.id) with
    | error e => rw [hcheck] at hu; simp at hu
    | ok _ =>
      rw [hcheck] at hu
      unfold userUpdate at hu
      simp [List.head?_replicate] at hu
      obtain ⟨h1, h2⟩ := hu
      refine ⟨h1.2.symm, ?_⟩
      rw [← h2]
      simp

/-! ## Claim theorems -/

/-- C1: `userDelete` runs a single transaction that first deletes all of the
user's sessions and then the user row; if either step fails, both deletions
are rolled back (the final state is the original one) and the failure is
surfaced as a bad-request error, so session rows are removed exactly when
the user row is removed. -/
theorem userDelete_transactional_cascade (st : DbState) (fs fd : Bool)
    (data : UserDeleteInputDto) :
    ((userDelete st fs fd data).1 = .error .badRequest ∧
      (userDelete st fs fd data).2 = st) ∨
    ((userDelete st fs fd data).1 =
        .ok (st.users.countP (fun u => u.id == data.id)) ∧
      (userDelete st fs fd data).2.users =
        st.users.filter (fun u => u.id != data.id) ∧
      (userDelete st fs fd data).2.sessions =
        st.sessions.filter (fun s => s.userId != data.id)) := by
  cases fs <;> cases fd <;>
    simp [userDelete, deleteAllSessions, destroyUser]

/-- C9: when both the ids list and the usernames list are empty, the `Op.or`
of the two empty conditions matches every row, so `usersFind` returns every
user in the store. -/
theorem usersFind_empty_input_returns_all (st : DbState) :
    usersFind st false ⟨[], []⟩ = Except.ok st.users := by
  simp [usersFind, findAllUsers, Cond.eval, Cond.evalAny, Cond.evalAll]

/-- C10: an empty (or missing) text filter makes `userList` build the empty
regexp, which matches every `displayName`, so the result equals the
unfiltered paginated listing. -/
theorem userList_empty_filter_is_unfiltered (st : DbState) (page paging : Nat) :
    (∀ s : String, (userListRegexp none).test s = true) ∧
    (∀ s : String, (userListRegexp (some "")).test s = true) ∧
    userList st false none page paging =
      Except.ok (findAllUsers st
        { wher := fun _ => true
          orderedByDisplayName := true
          offset := (page - 1) * paging
          limit := some paging }) ∧
    userList st false (some "") page paging =
      Except.ok (findAllUsers st
        { wher := fun _ => true
          orderedByDisplayName := true
          offset := (page - 1) * paging
          limit := some paging }) := by
  exact ⟨fun s => rfl, fun s => rfl, rfl, rfl⟩

/-- C6: every read operation converts an underlying database failure into
the generic bad-request error, the `userCreate`/`userUpdate` bodies convert
their failures into domain-coded message errors, and the uniqueness
pre-check surfaces as the domain not-unique code; each operation invokes the
repository once, mapping a failure directly to an error, without retrying. -/
theorem failures_surfaced_without_retry (st : DbState) (username : String)
    (id : Nat) (tf : Option String) (page paging : Nat) (args : UserFindArgsDto)
    (bh : String → Nat → String) (dc : UserCreateInputDto)
    (du : UserUpdateInputDto) :
    userFind st true username = .error .badRequest ∧
    userRoleFind st true id = .error .badRequest ∧
    checkVersion st true id = .error .badRequest ∧
    userNameFind st true username = .error .badRequest ∧
    user st true id = .error .badRequest ∧
    userList st true tf page paging = .error .badRequest ∧
    usersFind st true args = .error .badRequest ∧
    (userCreate bh st true dc).1 =
      .error (.messageCode "user:create:unableToCreateUser") ∧
    (userUpdate bh st true du).1 =
      .error (.messageCode "user:update:unableToUpdateUser") ∧
    (∀ oc, findOneUser st (fun r => r.username == dc.username) = some oc →
      (userCreateWrapped bh st false dc).1 =
        .error (.messageCode "user:validate:notUniqueUserName")) := by
  refine ⟨rfl, rfl, rfl, rfl, rfl, rfl, rfl, rfl, rfl, ?_⟩
  intro oc hoc
  simp [userCreateWrapped, checkIsValueUnique, userNameFind, hoc]

theorem failures_surfaced_without_retry_witness :
    userFind ⟨[⟨1, "eve", "h", "Eve E", "USER", 0⟩], []⟩ true "eve" =
      .error .badRequest ∧
    userRoleFind ⟨[⟨1, "eve", "h", "Eve E", "USER", 0⟩], []⟩ true 1 =
      .error .badRequest ∧
    checkVersion ⟨[⟨1, "eve", "h", "Eve E", "USER", 0⟩], []⟩ true 1 =
      .error .badRequest ∧
    userNameFind ⟨[⟨1, "eve", "h", "Eve E", "USER", 0⟩], []⟩ true "eve" =
      .error .badRequest ∧
    user ⟨[⟨1, "eve", "h", "Eve E", "USER", 0⟩], []⟩ true 1 =
      .error .badRequest ∧
    userList ⟨[⟨1, "eve", "h", "Eve E", "USER", 0⟩], []⟩ true none 1 10 =
      .error .badRequest ∧
    usersFind ⟨[⟨1, "eve", "h", "Eve E", "USER", 0⟩], []⟩ true ⟨[1], ["eve"]⟩ =
      .error .badRequest ∧
    (userCreate (fun p _ => p) ⟨[⟨1, "eve", "h", "Eve E", "USER", 0⟩], []⟩ true
        ⟨"eve", "pw", "F", "S", "M", "USER", ""⟩).1 =
      .error (.messageCode "user:create:unableToCreateUser") ∧
    (userUpdate (fun p _ => p) ⟨[⟨1, "eve", "h", "Eve E", "USER", 0⟩], []⟩ true
        ⟨1, 0, "eve", "pw", "F", "S", "M", "USER", ""⟩).1 =
      .error (.messageCode "user:update:unableToUpdateUser") ∧
    (∀ oc, findOneUser ⟨[⟨1, "eve", "h", "Eve E", "USER", 0⟩], []⟩
        (fun r => r.username ==
          (⟨"eve", "pw", "F", "S", "M", "USER", ""⟩ : UserCreateInputDto).username) =
          some oc →
      (userCreateWrapped (fun p _ => p) ⟨[⟨1, "eve", "h", "Eve E", "USER", 0⟩], []⟩
          false ⟨"eve", "pw", "F", "S", "M", "USER", ""⟩).1 =
        .error (.messageCode "user:validate:notUniqueUserName")) :=
  failures_surfaced_without_retry ⟨[⟨1, "eve", "h", "Eve E", "USER", 0⟩], []⟩
    "eve" 1 none 1 10 ⟨[1], ["eve"]⟩ (fun p _ => p)
    ⟨"eve", "pw", "F", "S", "M", "USER", ""⟩
    ⟨1, 0, "eve", "pw", "F", "S", "M", "USER", ""⟩

/-- C7 is false as stated: a successful `userDelete` returns the number of
destroyed rows, not the user DTO — two states whose only user rows differ in
every DTO field both yield the bare value `1`. -/
theorem userDelete_returns_count_counterexample :
    (userDelete ⟨[⟨1, "alice", "ha", "Alice A", "ADMIN", 0⟩], []⟩
        false false ⟨1, 0⟩).1 = Except.ok 1 ∧
    (userDelete ⟨[⟨1, "bob", "hb", "Bob B", "USER", 7⟩], []⟩
        false false ⟨1, 0⟩).1 = Except.ok 1 ∧
    (⟨1, "alice", "ha", "Alice A", "ADMIN", 0⟩ : User) ≠
      ⟨1, "bob", "hb", "Bob B", "USER", 7⟩ := by
  refine ⟨rfl, rfl, by decide⟩

/-- C7 amended: `userCreate` returns the created user DTO and `userUpdate`
returns the first updated user DTO (when a row matched), while a successful
`userDelete` returns the number of user rows destroyed, not a DTO. -/
theorem mutations_return_entity_except_delete (bh : String → Nat → String)
    (st : DbState) (dc : UserCreateInputDto) (du : UserUpdateInputDto)
    (data : UserDeleteInputDto) :
    (userDelete st false false data).1 =
      Except.ok (st.users.countP (fun u => u.id == data.id)) ∧
    (userCreate bh st false dc).1 = Except.ok (createdRow bh st dc) ∧
    (userUpdate bh st false du).1 =
      Except.ok (((st.users.filter (fun u => u.id == du.id)).map
        (fun _ => updatedRow bh du)).head?) := by
  exact ⟨rfl, rfl, rfl⟩

/-- C2: `userUpdate` and `userDelete` take the caller-read version; the
optimistic-locking decorator re-reads the row's current version through
`checkVersion` before the body runs, and a mismatch fails with the conflict
error — a value distinct from the not-found error — leaving the state
unchanged. -/
theorem version_mismatch_rejected (bh : String → Nat → String) (st : DbState)
    (du : UserUpdateInputDto) (dd : UserDeleteInputDto) (ru rd : User)
    (hfu : findOneUser st (fun r => r.id == du.id) = some ru)
    (hvu : ru.version ≠ du.version)
    (hfd : findOneUser st (fun r => r.id == dd.id) = some rd)
    (hvd : rd.version ≠ dd.version) :
    userUpdateWrapped bh st false du = (.error .conflict, st) ∧
    userDeleteWrapped st false false false dd = (.error .conflict, st) ∧
    ServiceError.conflict ≠ ServiceError.notFound := by
  refine ⟨?_, ?_, by decide⟩
  · simp [userUpdateWrapped, optimisticLockingCheck, checkVersion, hfu, hvu]
  · simp [userDeleteWrapped, optimisticLockingCheck, checkVersion, hfd, hvd]

theorem version_mismatch_rejected_witness :
    userUpdateWrapped (fun p _ => p) ⟨[⟨1, "bob", "h", "Bob B", "USER", 5⟩], []⟩
        false ⟨1, 4, "bob", "pw", "F", "S", "M", "USER", ""⟩ =
      (.error .conflict, ⟨[⟨1, "bob", "h", "Bob B", "USER", 5⟩], []⟩) ∧
    userDeleteWrapped ⟨[⟨1, "bob", "h", "Bob B", "USER", 5⟩], []⟩
        false false false ⟨1, 3⟩ =
      (.error .conflict, ⟨[⟨1, "bob", "h", "Bob B", "USER", 5⟩], []⟩) ∧
    ServiceError.conflict ≠ ServiceError.notFound :=
  version_mismatch_rejected (fun p _ => p)
    ⟨[⟨1, "bob", "h", "Bob B", "USER", 5⟩], []⟩
    ⟨1, 4, "bob", "pw", "F", "S", "M", "USER", ""⟩ ⟨1, 3⟩
    ⟨1, "bob", "h", "Bob B", "USER", 5⟩ ⟨1, "bob", "h", "Bob B", "USER", 5⟩
    rfl (by decide) rfl (by decide)

/-- C3: before `userCreate` inserts and before `userUpdate` updates, a row
with the requested username is looked up via `userNameFind` (its id compared
with the input id on update); finding one makes the call fail with
`user:validate:notUniqueUserName` and leaves the store unchanged, so no row
is inserted or updated. -/
theorem username_uniqueness_precheck (bh : String → Nat → String) (st : DbState)
    (dc : UserCreateInputDto) (du : UserUpdateInputDto) (oc ou ru : User)
    (hoc : findOneUser st (fun r => r.username == dc.username) = some oc)
    (hfu : findOneUser st (fun r => r.id == du.id) = some ru)
    (hvu : ru.version = du.version)
    (hou : findOneUser st (fun r => r.username == du.username) = some ou)
    (hne : ou.id ≠ du.id) :
    userCreateWrapped bh st false dc =
      (.error (.messageCode "user:validate:notUniqueUserName"), st) ∧
    userUpdateWrapped bh st false du =
      (.error (.messageCode "user:validate:notUniqueUserName"), st) := by
  constructor
  · simp [userCreateWrapped, checkIsValueUnique, userNameFind, hoc]
  · simp [userUpdateWrapped, optimisticLockingCheck, checkVersion, hfu, hvu,
      checkIsValueUnique, userNameFind, hou, hne]

theorem username_uniqueness_precheck_witness :
    userCreateWrapped (fun p _ => p)
        ⟨[⟨1, "bob", "h", "Bob B", "USER", 5⟩,
          ⟨2, "alice", "h", "Alice A", "USER", 5⟩], []⟩ false
        ⟨"bob", "pw", "F", "S", "M", "USER", ""⟩ =
      (.error (.messageCode "user:validate:notUniqueUserName"),
       ⟨[⟨1, "bob", "h", "Bob B", "USER", 5⟩,
         ⟨2, "alice", "h", "Alice A", "USER", 5⟩], []⟩) ∧
    userUpdateWrapped (fun p _ => p)
        ⟨[⟨1, "bob", "h", "Bob B", "USER", 5⟩,
          ⟨2, "alice", "h", "Alice A", "USER", 5⟩], []⟩ false
        ⟨2, 5, "bob", "pw", "F", "S", "M", "USER", ""⟩ =
      (.error (.messageCode "user:validate:notUniqueUserName"),
       ⟨[⟨1, "bob", "h", "Bob B", "USER", 5⟩,
         ⟨2, "alice", "h", "Alice A", "USER", 5⟩], []⟩) :=
  username_uniqueness_precheck (fun p _ => p)
    ⟨[⟨1, "bob", "h", "Bob B", "USER", 5⟩,
      ⟨2, "alice", "h", "Alice A", "USER", 5⟩], []⟩
    ⟨"bob", "pw", "F", "S", "M", "USER", ""⟩
    ⟨2, 5, "bob", "pw", "F", "S", "M", "USER", ""⟩
    ⟨1, "bob", "h", "Bob B", "USER", 5⟩
    ⟨1, "bob", "h", "Bob B", "USER", 5⟩
    ⟨2, "alice", "h", "Alice A", "USER", 5⟩
    rfl rfl rfl rfl (by decide)

/-- C5: a successful create or update stores as `passwordHash` exactly the
bcrypt hash with 12 rounds of the caller-supplied password — never the
supplied value itself, given that bcrypt never returns its input (true of
the real bcrypt, whose output carries the `$2b$` prefix format). -/
theorem password_never_stored_plain (bh : String → Nat → String) (st : DbState)
    (dc : UserCreateInputDto) (du : UserUpdateInputDto) (u1 u2 : User)
    (st1 st2 : DbState)
    (hbh : ∀ p, bh p 12 ≠ p)
    (hc : userCreateWrapped bh st false dc = (.ok u1, st1))
    (hu : userUpdateWrapped bh st false du = (.ok (some u2), st2)) :
    u1.passwordHash = bh dc.passwordHash 12 ∧
    u1.passwordHash ≠ dc.passwordHash ∧
    u1 ∈ st1.users ∧
    u2.passwordHash = bh du.passwordHash 12 ∧
    u2.passwordHash ≠ du.passwordHash ∧
    (∀ r ∈ st2.users, r.id = du.id → r.passwordHash = bh du.passwordHash 12) := by
  obtain ⟨hu1, hst1⟩ := userCreateWrapped_ok bh st dc u1 st1 hc
  obtain ⟨hu2, hst2⟩ := userUpdateWrapped_ok bh st du u2 st2 hu
  refine ⟨?_, ?_, ?_, ?_, ?_, ?_⟩
  · rw [hu1]; rfl
  · rw [hu1]; exact hbh dc.passwordHash
  · rw [hst1]; simp
  · rw [hu2]; rfl
  · rw [hu2]; exact hbh du.passwordHash
  · intro r hr hid
    rw [hst2] at hr
    simp only [List.mem_map] at hr
    obtain ⟨u, _, heq⟩ := hr
    by_cases h : u.id = du.id
    · simp [h] at heq; rw [← heq]; rfl
    · simp [h] at heq; rw [← heq] at hid; exact absurd hid h

theorem password_never_stored_plain_witness :
    (⟨2, "alice", "#pw", "S F M", "ADMIN", 0⟩ : User).passwordHash =
        (fun p (_ : Nat) => "#" ++ p) "pw" 12 ∧
    (⟨2, "alice", "#pw", "S F M", "ADMIN", 0⟩ : User).passwordHash ≠ "pw" ∧
    (⟨2, "alice", "#pw", "S F M", "ADMIN", 0⟩ : User) ∈
      (⟨[⟨1, "bob", "h", "Bob B", "USER", 5⟩,
         ⟨2, "alice", "#pw", "S F M", "ADMIN", 0⟩], []⟩ : DbState).users ∧
    (⟨1, "bob", "#pw2", "S F M", "USER", 5⟩ : User).passwordHash =
        (fun p (_ : Nat) => "#" ++ p) "pw2" 12 ∧
    (⟨1, "bob", "#pw2", "S F M", "USER", 5⟩ : User).passwordHash ≠ "pw2" ∧
    (∀ r ∈ (⟨[⟨1, "bob", "#pw2", "S F M", "USER", 5⟩], []⟩ : DbState).users,
      r.id = 1 → r.passwordHash = (fun p (_ : Nat) => "#" ++ p) "pw2" 12) :=
  password_never_stored_plain (fun p _ => "#" ++ p)
    ⟨[⟨1, "bob", "h", "Bob B", "USER", 5⟩], []⟩
    ⟨"alice", "pw", "F", "S", "M", "ADMIN", "ig"⟩
    ⟨1, 5, "bob", "pw2", "F", "S", "M", "USER", "x"⟩
    ⟨2, "alice", "#pw", "S F M", "ADMIN", 0⟩
    ⟨1, "bob", "#pw2", "S F M", "USER", 5⟩
    ⟨[⟨1, "bob", "h", "Bob B", "USER", 5⟩,
      ⟨2, "alice", "#pw", "S F M", "ADMIN", 0⟩], []⟩
    ⟨[⟨1, "bob", "#pw2", "S F M", "USER", 5⟩], []⟩
    (fun p h => by
      have hlen := congrArg String.length h
      rw [String.length_append] at hlen
      have h1 : "#".length = 1 := rfl
      omega)
    rfl rfl

/-- C8: after every successful create or update, the stored `displayName`
equals `secondName ++ " " ++ firstName ++ " " ++ middleName` built from the
supplied name parts; the input's own `displayName` field (`dc.displayName`,
`du.displayName`) is arbitrary here and does not occur in the conclusion, so
the caller-supplied value is irrelevant. -/
theorem displayName_derived_from_name_parts (bh : String → Nat → String)
    (st : DbState) (dc : UserCreateInputDto) (du : UserUpdateInputDto)
    (u1 u2 : User) (st1 st2 : DbState)
    (hc : userCreateWrapped bh st false dc = (.ok u1, st1))
    (hu : userUpdateWrapped bh st false du = (.ok (some u2), st2)) :
    u1.displayName = dc.secondName ++ " " ++ dc.firstName ++ " " ++ dc.middleName ∧
    u2.displayName = du.secondName ++ " " ++ du.firstName ++ " " ++ du.middleName ∧
    (∀ r ∈ st2.users, r.id = du.id →
      r.displayName = du.secondName ++ " " ++ du.firstName ++ " " ++ du.middleName) := by
  obtain ⟨hu1, hst1⟩ := userCreateWrapped_ok bh st dc u1 st1 hc
  obtain ⟨hu2, hst2⟩ := userUpdateWrapped_ok bh st du u2 st2 hu
  refine ⟨by rw [hu1]; rfl, by rw [hu2]; rfl, ?_⟩
  intro r hr hid
  rw [hst2] at hr
  simp only [List.mem_map] at hr
  obtain ⟨u, _, heq⟩ := hr
  by_cases h : u.id = du.id
  · simp [h] at heq; rw [← heq]; rfl
  · simp [h] at heq; rw [← heq] at hid; exact absurd hid h

theorem displayName_derived_from_name_parts_witness :
    (⟨2, "carol", "#q", "S2 F2 M2", "ADMIN", 0⟩ : User).displayName =
        "S2" ++ " " ++ "F2" ++ " " ++ "M2" ∧
    (⟨1, "dave", "#q2", "S3 F3 M3", "USER", 5⟩ : User).displayName =
        "S3" ++ " " ++ "F3" ++ " " ++ "M3" ∧
    (∀ r ∈ (⟨[⟨1, "dave", "#q2", "S3 F3 M3", "USER", 5⟩], []⟩ : DbState).users,
      r.id = 1 → r.displayName = "S3" ++ " " ++ "F3" ++ " " ++ "M3") :=
  displayName_derived_from_name_parts (fun p _ => "#" ++ p)
    ⟨[⟨1, "dave", "h", "Dave D", "USER", 5⟩], []⟩
    ⟨"carol", "q", "F2", "S2", "M2", "ADMIN", "supplied-display-name"⟩
    ⟨1, 5, "dave", "q2", "F3", "S3", "M3", "USER", "another-supplied-name"⟩
    ⟨2, "carol", "#q", "S2 F2 M2", "ADMIN", 0⟩
    ⟨1, "dave", "#q2", "S3 F3 M3", "USER", 5⟩
    ⟨[⟨1, "dave", "h", "Dave D", "USER", 5⟩,
      ⟨2, "carol", "#q", "S2 F2 M2", "ADMIN", 0⟩], []⟩
    ⟨[⟨1, "dave", "#q2", "S3 F3 M3", "USER", 5⟩], []⟩
    rfl rfl

/-- C4: for any page ≥ 1, `userList` returns at most `paging` users: it
keeps exactly the users whose `displayName` matches the text-filter regexp,
orders them ascending by `displayName`, skips the first
`(page - 1) * paging` matches and takes the next `paging` of them. -/
theorem userList_paginates_filters_sorts (st : DbState) (tf : Option String)
    (page paging : Nat) (hpage : 1 ≤ page) :
    ∃ l, userList st false tf page paging = Except.ok l ∧
      l.length ≤ paging ∧
      (∀ u ∈ l, (userListRegexp tf).test u.displayName = true) ∧
      l.Pairwise byDisplayNameLE ∧
      l = (((st.users.filter
          (fun u => (userListRegexp tf).test u.displayName)).insertionSort
            byDisplayNameLE).drop ((page - 1) * paging)).take paging := by
  haveI : IsTotal User byDisplayNameLE :=
    ⟨fun a b => charListLE_total a.displayName.data b.displayName.data⟩
  haveI : IsTrans User byDisplayNameLE :=
    ⟨fun _ _ _ hab hbc => charListLE_trans _ _ _ hab hbc⟩
  refine ⟨(((st.users.filter
      (fun u => (userListRegexp tf).test u.displayName)).insertionSort
        byDisplayNameLE).drop ((page - 1) * paging)).take paging,
    rfl, ?_, ?_, ?_, rfl⟩
  · rw [List.length_take]
    exact min_le_left _ _
  · intro u hu
    have h1 := List.mem_of_mem_drop (List.mem_of_mem_take hu)
    rw [List.mem_insertionSort] at h1
    exact (List.mem_filter.mp h1).2
  · have hs := List.sorted_insertionSort byDisplayNameLE
      (st.users.filter (fun u => (userListRegexp tf).test u.displayName))
    exact List.Pairwise.sublist
      ((List.take_sublist _ _).trans (List.drop_sublist _ _)) hs

theorem userList_paginates_filters_sorts_witness :
    ∃ l, userList
        ⟨[⟨1, "u1", "h", "Bob Cole", "USER", 0⟩,
          ⟨2, "u2", "h", "Alice Boyd", "USER", 0⟩,
          ⟨3, "u3", "h", "Carol Dean", "USER", 0⟩], []⟩
        false (some "bo") 1 2 = Except.ok l ∧
      l.length ≤ 2 ∧
      (∀ u ∈ l, (userListRegexp (some "bo")).test u.displayName = true) ∧
      l.Pairwise byDisplayNameLE ∧
      l = ((((⟨[⟨1, "u1", "h", "Bob Cole", "USER", 0⟩,
          ⟨2, "u2", "h", "Alice Boyd", "USER", 0⟩,
          ⟨3, "u3", "h", "Carol Dean", "USER", 0⟩], []⟩ : DbState).users.filter
            (fun u => (userListRegexp (some "bo")).test u.displayName)).insertionSort
              byDisplayNameLE).drop ((1 - 1) * 2)).take 2 :=
  userList_paginates_filters_sorts
    ⟨[⟨1, "u1", "h", "Bob Cole", "USER", 0⟩,
      ⟨2, "u2", "h", "Alice Boyd", "USER", 0⟩,
      ⟨3, "u3", "h", "Carol Dean", "USER", 0⟩], []⟩
    (some "bo") 1 2 (by decide)

end NestGraphqlTypeorm
